import Mathlib

/-!
Verification development for the duplicate-detection and price-history
reconciliation engine of the marketplace-tracker repository.

The engine lives in `40-automation/scripts/advanced_duplicate_manager.py`
(fingerprints, matching, change detection, entity store and price-history
ledger) and `40-automation/scripts/price_tracker.py` (trend analytics).
Each definition below is a shallow embedding of one Python function,
keeping the source's name and control flow.

Modelling conventions:
- Python numbers (prices, scores) are `Rat`; timestamps are `Rat` counts
  of days, so `datetime` subtraction and `timedelta(days = n)` comparisons
  become `Rat` subtraction and comparison with `n`.
- A Python value that may be `None`/missing is an `Option`; Python
  truthiness (`if x:`) on strings is `x ≠ ""`, on numbers `x ≠ 0`, on
  lists `x ≠ []`, on `None` false.
- `hashlib.md5(s.encode()).hexdigest()[:16]` is modelled by the opaque
  injective encoding `Digest.mk s`: the digest of a string is represented
  by the hashed string itself.  Only digest equality/inequality is ever
  observed by the engine, and equal inputs give equal md5 digests while
  the unequal concrete inputs appearing below give unequal truncated
  digests; hash collisions are out of scope, as in the spec.
- `difflib.SequenceMatcher(...).ratio()` is an external Python library
  function, not repository code; it is threaded through as an explicit
  similarity parameter `simr : String → String → Rat`.
- Python dicts (the entity store, the price-history ledger) are
  association lists, which preserve Python's insertion-order iteration.
-/

set_option allowUnsafeReducibility true
attribute [local semireducible] Rat.mul Rat.add Rat.sub Rat.inv

deriving instance DecidableEq for Except

namespace MPT

/-- Python `min(a, b)` on numbers: the first argument wins ties. -/
def rat_min (a b : Rat) : Rat := if a ≤ b then a else b

/-- Python `max(a, b)` on numbers: the first argument wins ties. -/
def rat_max (a b : Rat) : Rat := if b ≤ a then a else b

/-- Code-point lexicographic comparison of character lists, the order
Python uses to compare strings. -/
def chars_le : List Char → List Char → Bool
  | [], _ => true
  | _ :: _, [] => false
  | a :: as, b :: bs =>
    if a < b then true
    else if a = b then chars_le as bs
    else false

/-- Python's `<=` on strings. -/
def py_str_le (a b : String) : Bool := chars_le a.data b.data

/-- The string order used by Python's `sorted`, as a relation. -/
abbrev py_le (a b : String) : Prop := py_str_le a b = true

/-- Truncated md5 digest, modelled as an opaque injective encoding of the
hashed input string (see the header comment). -/
structure Digest where
  data : String
deriving DecidableEq, Repr

/-- One scrape of a listing: the `listing_data` / `new_listing` dict. -/
structure Observation where
  id : Option String := none
  title : Option String := none
  description : Option String := none
  price : Option Rat := none
  location : Option String := none
  seller : Option String := none
  images : List String := []
  url : Option String := none
deriving DecidableEq, Repr

/-- The five fingerprint kinds produced by `create_composite_fingerprint`,
in the dict's insertion order. -/
inductive FingerprintKind
  | exact
  | content
  | item
  | images
  | seller_item
deriving DecidableEq, Repr

/-- The dict returned by `create_composite_fingerprint`: every key is
always present; only the `images` value can be `None`. -/
structure FingerprintSet where
  exact : Digest
  content : Digest
  item : Digest
  images : Option Digest
  seller_item : Digest
deriving DecidableEq, Repr

/-- Dict lookup `fingerprints[fp_type]` on a `FingerprintSet`. -/
def FingerprintSet.get (f : FingerprintSet) : FingerprintKind → Option Digest
  | .exact => some f.exact
  | .content => some f.content
  | .item => some f.item
  | .images => f.images
  | .seller_item => some f.seller_item

/-- Iteration order of `fingerprints.items()` in `find_duplicates`. -/
def kinds_in_order : List FingerprintKind :=
  [.exact, .content, .item, .images, .seller_item]

/-- One entry of the persisted duplicate database (the entity store). -/
structure Entity where
  listing_id : String
  original_url : Option String
  title : Option String
  price : Option Rat
  description : Option String
  images : List String
  seller : Option String
  location : Option String
  fingerprints : FingerprintSet
  first_seen : Option Rat
  last_seen : Option Rat
  times_seen : Nat
deriving DecidableEq, Repr

/-! ### Text normalization (`_normalize_text`) -/

/-- Matcher for the regex `\(\d+\)\s*Marketplace\s*-\s*` anchored at the
front of the character list; on success returns the remainder after the
match. -/
def match_marketplace_pat : List Char → Option (List Char)
  | '(' :: rest =>
    let digits := rest.takeWhile Char.isDigit
    if digits.isEmpty then none
    else
      match rest.drop digits.length with
      | ')' :: rest2 =>
        let rest3 := rest2.dropWhile Char.isWhitespace
        if ("Marketplace".data).isPrefixOf rest3 then
          let rest4 := (rest3.drop "Marketplace".data.length).dropWhile Char.isWhitespace
          match rest4 with
          | '-' :: rest5 => some (rest5.dropWhile Char.isWhitespace)
          | _ => none
        else none
      | _ => none
  | _ => none

/-- Fuel-indexed scan implementing
`re.sub(r'\(\d+\)\s*Marketplace\s*-\s*', '', text)`: the leftmost,
non-overlapping matches are deleted.  The fuel is always the input
length, which bounds the recursion. -/
def strip_marketplace_aux : Nat → List Char → List Char
  | 0, s => s
  | _ + 1, [] => []
  | fuel + 1, c :: rest =>
    match match_marketplace_pat (c :: rest) with
    | some rest2 => strip_marketplace_aux fuel rest2
    | none => c :: strip_marketplace_aux fuel rest

def strip_marketplace (s : List Char) : List Char :=
  strip_marketplace_aux s.length s

/-- Matcher for the regex `\|\s*Facebook$` anchored at the front of the
character list (the match must extend to the end of the string). -/
def fb_match_at : List Char → Bool
  | '|' :: rest => decide (rest.dropWhile Char.isWhitespace = "Facebook".data)
  | _ => false

/-- Scan implementing `re.sub(r'\|\s*Facebook$', '', text)`: the leftmost
position whose suffix matches the end-anchored pattern is cut off. -/
def strip_facebook : List Char → List Char
  | [] => []
  | c :: rest => if fb_match_at (c :: rest) then [] else c :: strip_facebook rest

/-- Python `str.split()` with no argument: split on runs of whitespace,
discarding empty pieces.  Fuel-indexed (fuel = input length) to keep the
recursion structural. -/
def py_split_aux : Nat → List Char → List (List Char)
  | 0, _ => []
  | _ + 1, [] => []
  | fuel + 1, c :: rest =>
    if c.isWhitespace then py_split_aux fuel rest
    else
      (c :: rest.takeWhile (fun x => !x.isWhitespace))
        :: py_split_aux fuel (rest.dropWhile (fun x => !x.isWhitespace))

def py_split_ws (s : List Char) : List (List Char) :=
  py_split_aux s.length s

/-- Python `' '.join(words)`. -/
def join_words : List (List Char) → List Char
  | [] => []
  | [w] => w
  | w :: ws => w ++ ' ' :: join_words ws

/-- Embedding of `_normalize_text`: strip the two marketplace boilerplate
patterns, then `' '.join(text.lower().split())`. -/
def normalize_text (text : String) : String :=
  if text = "" then ""
  else
    let t := strip_facebook (strip_marketplace text.data)
    let t := t.map Char.toLower
    String.mk (join_words (py_split_ws t))

/-! ### Fingerprints (`create_composite_fingerprint` and helpers) -/

/-- Python `f"{price}"` on the optional price value (`str(None)` is
`"None"`); the exact float spelling is irrelevant, only injectivity on
the modelled values matters. -/
def py_str_price : Option Rat → String
  | none => "None"
  | some q => toString q

/-- Embedding of `_create_exact_fingerprint`. -/
def create_exact_fingerprint (title description : String) (price : Option Rat)
    (location : String) : Digest :=
  ⟨normalize_text title ++ normalize_text description ++ py_str_price price ++ location⟩

/-- Embedding of `_create_content_fingerprint`. -/
def create_content_fingerprint (title description location : String) : Digest :=
  ⟨normalize_text title ++ normalize_text description ++ location⟩

/-- Substring containment, Python's `needle in haystack`. -/
def contains_sub (needle : List Char) : List Char → Bool
  | [] => needle.isEmpty
  | c :: rest => needle.isPrefixOf (c :: rest) || contains_sub needle rest

/-- The fixed make vocabulary of `_extract_make_model_year`. -/
def makes_vocab : List String :=
  ["yamaha", "sea-doo", "seadoo", "kawasaki", "honda", "polaris"]

/-- Alternatives of the first model regex
`(vx|fx|gp|gtr|gtx|gti|rxt|svho|cruiser|deluxe|wake|pro)`. -/
def model_alts1 : List String :=
  ["vx", "fx", "gp", "gtr", "gtx", "gti", "rxt", "svho", "cruiser", "deluxe", "wake", "pro"]

/-- Alternatives of the second model regex `(superjet|waverunner|jetski)`. -/
def model_alts2 : List String :=
  ["superjet", "waverunner", "jetski"]

/-- First alternative (in regex order) matching at the current position. -/
def find_alt_at (alts : List String) (s : List Char) : Option String :=
  alts.find? (fun a => a.data.isPrefixOf s)

/-- `re.search` over an alternation: leftmost match position, first
alternative that matches there. -/
def search_alts (alts : List String) : List Char → Option String
  | [] => find_alt_at alts []
  | c :: rest =>
    match find_alt_at alts (c :: rest) with
    | some a => some a
    | none => search_alts alts rest

/-- Match of the regex `(20\d{2}|19\d{2})` at the current position. -/
def year_at : List Char → Option String
  | a :: b :: c :: d :: _ =>
    if a = '2' && b = '0' && c.isDigit && d.isDigit then some (String.mk [a, b, c, d])
    else if a = '1' && b = '9' && c.isDigit && d.isDigit then some (String.mk [a, b, c, d])
    else none
  | _ => none

/-- `re.search(r'(20\d{2}|19\d{2})', title)`: leftmost 4-digit year. -/
def search_year : List Char → Option String
  | [] => none
  | c :: rest =>
    match year_at (c :: rest) with
    | some y => some y
    | none => search_year rest

structure MakeModelYear where
  make : String
  model : String
  year : String
deriving DecidableEq, Repr

/-- Embedding of `_extract_make_model_year` (called on the already
normalized title). -/
def extract_make_model_year (title : String) : MakeModelYear :=
  let title_lower := String.mk (title.data.map Char.toLower)
  let make := (makes_vocab.find? (fun m => contains_sub m.data title_lower.data)).getD "unknown"
  let year := (search_year title.data).getD "unknown"
  let model :=
    match search_alts model_alts1 title_lower.data with
    | some m => m
    | none => (search_alts model_alts2 title_lower.data).getD "unknown"
  ⟨make, model, year⟩

/-- Embedding of `_create_item_fingerprint`. -/
def create_item_fingerprint (title : String) : Digest :=
  let normalized := normalize_text title
  let mmy := extract_make_model_year normalized
  ⟨mmy.make ++ mmy.model ++ mmy.year⟩

/-- Embedding of `_create_image_fingerprint`: `sorted` on the truthy
(non-empty) URLs, then the digest of their concatenation.  `sorted` is
modelled by `insertionSort` under the code-point order on strings (any
correct sort gives the same list, since string order is antisymmetric). -/
def create_image_fingerprint (images : List String) : Option Digest :=
  if images.isEmpty then none
  else
    let image_urls := List.insertionSort py_le (images.filter (fun img => img ≠ ""))
    some ⟨String.join image_urls⟩

/-- Embedding of `_extract_seller_identifier` (its argument is
`listing_data.get('seller', '')`, so an absent seller is falsy). -/
def extract_seller_identifier (seller_data : Option String) : String :=
  match seller_data with
  | none => "unknown"
  | some s => if s = "" then "unknown" else normalize_text s

/-- Embedding of `_create_seller_item_fingerprint`.  In Python the item
fingerprint's hex digest is concatenated into the hashed data; under the
digest model the digest is represented by its hashed input string, so
the concatenation uses that representation. -/
def create_seller_item_fingerprint (listing_data : Observation) : Digest :=
  let seller_id := extract_seller_identifier (some (listing_data.seller.getD ""))
  let item_id := create_item_fingerprint (listing_data.title.getD "")
  ⟨seller_id ++ item_id.data ++ listing_data.location.getD ""⟩

/-- Embedding of `create_composite_fingerprint`. -/
def create_composite_fingerprint (listing_data : Observation) : FingerprintSet :=
  let title := listing_data.title.getD ""
  let description := listing_data.description.getD ""
  let price := listing_data.price
  let location := listing_data.location.getD ""
  let images := listing_data.images
  { exact := create_exact_fingerprint title description price location
    content := create_content_fingerprint title description location
    item := create_item_fingerprint title
    images := create_image_fingerprint images
    seller_item := create_seller_item_fingerprint listing_data }

/-! ### Confidence scoring and change detection -/

/-- The `confidence_weights` dict of `_calculate_confidence`.  The
`.get(fp_type, 0.5)` default is dead code: `fp_type` always ranges over
the five dict keys. -/
def confidence_weights : FingerprintKind → Rat
  | .exact => 1
  | .content => 9/10
  | .item => 7/10
  | .images => 4/5
  | .seller_item => 17/20

/-- Embedding of `_calculate_time_factor`.  A stored `last_seen` that
`datetime.fromisoformat` cannot parse (the bare `except` branch) is
modelled as `none` and yields `0.5`; otherwise the factor depends on
`now - last_seen` in days. -/
def calculate_time_factor (now : Rat) (last_seen : Option Rat) : Rat :=
  match last_seen with
  | none => 1/2
  | some t =>
    let time_diff := now - t
    if time_diff ≤ 7 then 1
    else if time_diff ≤ 30 then 4/5
    else if time_diff ≤ 90 then 3/5
    else 3/10

/-- Python `str.lower()`. -/
def py_lower (s : String) : String :=
  String.mk (s.data.map Char.toLower)

/-- Embedding of `_calculate_confidence`; `simr` stands for
`difflib.SequenceMatcher(None, a, b).ratio()` (external library). -/
def calculate_confidence (simr : String → String → Rat) (now : Rat)
    (fp_type : FingerprintKind) (new_listing : Observation) (stored_listing : Entity) : Rat :=
  let base_confidence := confidence_weights fp_type
  let title_similarity :=
    simr (py_lower (new_listing.title.getD "")) (py_lower (stored_listing.title.getD ""))
  let time_factor := calculate_time_factor now stored_listing.last_seen
  let final_confidence := base_confidence * (7/10) + title_similarity * (2/10) + time_factor * (1/10)
  rat_min final_confidence 1

/-- Python truthiness of an optional numeric value. -/
def truthy_rat : Option Rat → Bool
  | none => false
  | some q => q ≠ 0

/-- The `changes` dict built by `_detect_changes` (the `images_added` /
`images_removed` keys default to `[]` when images did not change; Python
iterates the difference sets in unspecified order, modelled by a
duplicate-free filter in first-occurrence order). -/
structure Changes where
  price_changed : Bool := false
  content_changed : Bool := false
  images_changed : Bool := false
  price_direction : Option String := none
  price_change_amount : Option Rat := none
  images_added : List String := []
  images_removed : List String := []
deriving DecidableEq, Repr

/-- Python `set(a) == set(b)` on string lists. -/
def list_set_eq (a b : List String) : Bool :=
  a.all (fun x => x ∈ b) && b.all (fun x => x ∈ a)

/-- Embedding of `_detect_changes`. -/
def detect_changes (simr : String → String → Rat)
    (new_listing : Observation) (stored_listing : Entity) : Changes :=
  let old_price := stored_listing.price
  let new_price := new_listing.price
  let pc := truthy_rat old_price && truthy_rat new_price && decide (old_price ≠ new_price)
  let old_desc := stored_listing.description.getD ""
  let new_desc := new_listing.description.getD ""
  let cc :=
    if old_desc ≠ "" && new_desc ≠ "" then decide (simr old_desc new_desc < 9/10)
    else false
  let old_images := stored_listing.images
  let new_images := new_listing.images
  let ic := !list_set_eq old_images new_images
  { price_changed := pc
    content_changed := cc
    images_changed := ic
    price_direction :=
      if pc then
        some (if new_price.getD 0 > old_price.getD 0 then "increase" else "decrease")
      else none
    price_change_amount := if pc then some (new_price.getD 0 - old_price.getD 0) else none
    images_added :=
      if ic then (new_images.filter (fun i => i ∉ old_images)).dedup else []
    images_removed :=
      if ic then (old_images.filter (fun i => i ∉ new_images)).dedup else [] }

/-! ### Duplicate matching (`find_duplicates`) -/

/-- One element of the `matched_listings` list built by
`find_duplicates`. -/
structure MatchInfo where
  fingerprint_type : FingerprintKind
  matched_listing_id : String
  original_url : Option String
  confidence : Rat
  changes_detected : Changes
deriving DecidableEq, Repr

/-- The recommended action chosen by `find_duplicates` (lines 197-211). -/
inductive Action
  | add_new
  | update_price_history
  | update_listing_details
  | update_images
  | skip_duplicate
deriving DecidableEq, Repr

/-- The `results` dict returned by `find_duplicates`. -/
structure DupResults where
  is_duplicate : Bool
  match_type : Option FingerprintKind
  confidence : Rat
  matched_listings : List MatchInfo
  recommended_action : Action
  price_change_detected : Bool
  content_change_detected : Bool
  image_change_detected : Bool
deriving DecidableEq, Repr

/-- The entity store: the persisted duplicate database, a dict keyed by
listing id, in insertion order. -/
abbrev EntityDb := List (String × Entity)

/-- Embedding of `_find_matches_by_fingerprint`: all stored listings
whose fingerprint of the given kind equals the probe value, in store
iteration order. -/
def find_matches_by_fingerprint (fp_type : FingerprintKind) (fp_value : Digest)
    (db : EntityDb) : List Entity :=
  (db.map Prod.snd).filter (fun e => e.fingerprints.get fp_type == some fp_value)

/-- Python `max(xs, key=lambda x: x['confidence'])` on a non-empty list:
the scan keeps the current maximum and replaces it only on a strictly
greater key, so the first element with the maximal key wins. -/
def py_max_by_confidence : List MatchInfo → Option MatchInfo
  | [] => none
  | m :: ms => some (ms.foldl (fun best x => if x.confidence > best.confidence then x else best) m)

/-- The `matched_listings` accumulation loop of `find_duplicates`:
fingerprint kinds in dict order, each falsy (absent) value skipped,
matches in store order. -/
def build_matched_listings (simr : String → String → Rat) (now : Rat)
    (db : EntityDb) (new_listing : Observation) : List MatchInfo :=
  let fingerprints := create_composite_fingerprint new_listing
  kinds_in_order.foldl
    (fun acc fp_type =>
      match fingerprints.get fp_type with
      | none => acc
      | some fp_value =>
        acc ++ (find_matches_by_fingerprint fp_type fp_value db).map
          (fun m =>
            { fingerprint_type := fp_type
              matched_listing_id := m.listing_id
              original_url := m.original_url
              confidence := calculate_confidence simr now fp_type new_listing m
              changes_detected := detect_changes simr new_listing m }))
    []

/-- The action chain of `find_duplicates` lines 199-211: price beats
content beats images beats skip. -/
def recommended_action (changes : Changes) : Action :=
  if changes.price_changed then .update_price_history
  else if changes.content_changed then .update_listing_details
  else if changes.images_changed then .update_images
  else .skip_duplicate

/-- Embedding of `find_duplicates`.  The three `*_detected` flags are
each set exactly in the branch whose action is chosen, i.e. they record
which action was selected. -/
def find_duplicates (simr : String → String → Rat) (now : Rat)
    (db : EntityDb) (new_listing : Observation) : DupResults :=
  let matched := build_matched_listings simr now db new_listing
  match py_max_by_confidence matched with
  | none =>
    { is_duplicate := false
      match_type := none
      confidence := 0
      matched_listings := matched
      recommended_action := .add_new
      price_change_detected := false
      content_change_detected := false
      image_change_detected := false }
  | some best_match =>
    let changes := best_match.changes_detected
    let act := recommended_action changes
    { is_duplicate := true
      match_type := some best_match.fingerprint_type
      confidence := best_match.confidence
      matched_listings := matched
      recommended_action := act
      price_change_detected := decide (act = .update_price_history)
      content_change_detected := decide (act = .update_listing_details)
      image_change_detected := decide (act = .update_images) }

/-! ### Persistence: entity store updates and the price-history ledger -/

/-- Dict lookup `db[k]` / `k in db` on an association list. -/
def alist_lookup {α : Type} : List (String × α) → String → Option α
  | [], _ => none
  | p :: t, k => if p.1 = k then some p.2 else alist_lookup t k

/-- Dict assignment `db[k] = v`: replace the binding in place if the key
is present, else append a new binding (Python dict insertion order). -/
def alist_set {α : Type} : List (String × α) → String → α → List (String × α)
  | [], k, v => [(k, v)]
  | p :: t, k, v => if p.1 = k then (k, v) :: t else p :: alist_set t k v

/-- One record of the price-history database
(`_record_price_change`). -/
structure PriceEntry where
  timestamp : Rat
  old_price : Option Rat
  new_price : Option Rat
  change_amount : Option Rat
  change_type : String
deriving DecidableEq, Repr

/-- The price-history ledger: dict from listing id to its list of
entries. -/
abbrev HistoryDb := List (String × List PriceEntry)

/-- The entry appended by `_record_price_change`. -/
def mk_price_entry (timestamp : Rat) (old_price new_price : Option Rat) : PriceEntry :=
  { timestamp := timestamp
    old_price := old_price
    new_price := new_price
    change_amount :=
      if truthy_rat old_price && truthy_rat new_price then
        some (new_price.getD 0 - old_price.getD 0)
      else none
    change_type :=
      if truthy_rat old_price && truthy_rat new_price
          && decide (new_price.getD 0 > old_price.getD 0) then "increase"
      else "decrease" }

/-- The ledger list for a listing id (`history_db.get(listing_id, [])`,
and the implicit `[]` created when the id is missing). -/
def history_entries (history_db : HistoryDb) (listing_id : String) : List PriceEntry :=
  (alist_lookup history_db listing_id).getD []

/-- Embedding of `_record_price_change`: append one entry to the id's
ledger list and write the store back. -/
def record_price_change (history_db : HistoryDb) (listing_id : String)
    (now : Rat) (old_price new_price : Option Rat) : HistoryDb :=
  alist_set history_db listing_id
    (history_entries history_db listing_id ++ [mk_price_entry now old_price new_price])

/-- Embedding of `add_to_duplicate_db`: the listing id is
`listing_data.get('id') or str(datetime.now().timestamp())` (Python `or`
falls through on a falsy id), and a fresh entity record is written with
`times_seen = 1` and `first_seen = last_seen = now`. -/
def add_to_duplicate_db (db : EntityDb) (listing_data : Observation)
    (fingerprints : FingerprintSet) (now : Rat) : EntityDb :=
  let listing_id :=
    match listing_data.id with
    | some s => if s = "" then toString now else s
    | none => toString now
  alist_set db listing_id
    { listing_id := listing_id
      original_url := listing_data.url
      title := listing_data.title
      price := listing_data.price
      description := listing_data.description
      images := listing_data.images
      seller := listing_data.seller
      location := listing_data.location
      fingerprints := fingerprints
      first_seen := some now
      last_seen := some now
      times_seen := 1 }

/-- The in-place mutation of one entry inside `update_duplicate_entry`:
overwrite each changed field, then refresh `last_seen` and bump
`times_seen`. -/
def apply_update (now : Rat) (entry : Entity) (new_data : Observation)
    (changes : Changes) : Entity :=
  let e := if changes.price_changed then { entry with price := new_data.price } else entry
  let e := if changes.content_changed then { e with description := new_data.description } else e
  let e := if changes.images_changed then { e with images := new_data.images } else e
  { e with last_seen := some now, times_seen := e.times_seen + 1 }

/-- The two persisted stores owned by the reconciler. -/
structure Store where
  db : EntityDb
  hist : HistoryDb
deriving DecidableEq, Repr

/-- Embedding of `update_duplicate_entry` (successful-I/O semantics): if
the id is unknown nothing happens; otherwise the price history is
appended first (with the entry's price before mutation) when a price
change was detected, and the mutated entry is written back. -/
def update_duplicate_entry (now : Rat) (st : Store) (listing_id : String)
    (new_data : Observation) (changes : Changes) : Store :=
  match alist_lookup st.db listing_id with
  | none => st
  | some entry =>
    let hist :=
      if changes.price_changed then
        record_price_change st.hist listing_id now entry.price new_data.price
      else st.hist
    { db := alist_set st.db listing_id (apply_update now entry new_data changes)
      hist := hist }

/-- Embedding of `update_duplicate_entry` with explicit I/O outcomes, in
the source's order of operations: load the duplicate db, (on a price
change) load and save the price-history db inside
`_record_price_change`, mutate the entry in memory, save the duplicate
db.  Each flag tells whether that load/save succeeds; a failed call
raises, leaving every file already written so far in its written state
(`Except.error` carries the on-disk state at the raise). -/
def update_duplicate_entry_fallible (read_db_ok read_hist_ok write_hist_ok write_db_ok : Bool)
    (now : Rat) (st : Store) (listing_id : String) (new_data : Observation)
    (changes : Changes) : Except Store Store :=
  if !read_db_ok then .error st
  else
    match alist_lookup st.db listing_id with
    | none => .ok st
    | some entry =>
      let hist_step : Except Store Store :=
        if changes.price_changed then
          if !read_hist_ok then .error st
          else if !write_hist_ok then .error st
          else .ok { st with
            hist := record_price_change st.hist listing_id now entry.price new_data.price }
        else .ok st
      match hist_step with
      | .error s => .error s
      | .ok st1 =>
        if !write_db_ok then .error st1
        else .ok { st1 with
          db := alist_set st1.db listing_id (apply_update now entry new_data changes) }

/-- One reconciliation's state change, as driven by the usage pattern of
the source (`find_duplicates`, then either `add_to_duplicate_db` for a
new listing or `update_duplicate_entry` for a recognized one). -/
inductive ReconOp
  | add (listing_data : Observation) (now : Rat)
  | upd (listing_id : String) (new_data : Observation) (changes : Changes) (now : Rat)
deriving Repr

/-- Apply one reconciliation to the stores. -/
def recon_step (st : Store) : ReconOp → Store
  | .add listing_data now =>
    { st with
      db := add_to_duplicate_db st.db listing_data (create_composite_fingerprint listing_data) now }
  | .upd listing_id new_data changes now =>
    update_duplicate_entry now st listing_id new_data changes

/-- Apply a sequence of reconciliations. -/
def recon_run (ops : List ReconOp) (st : Store) : Store :=
  ops.foldl recon_step st

/-! ### Trend analytics (`price_tracker.py`) -/

/-- One row of the `listing_trends` table.  `INSERT OR REPLACE` either
creates or overwrites the row for a url; real-valued columns may be SQL
`NULL` (`Option`). -/
structure TrendRow where
  current_price : Option Rat
  original_price : Option Rat
  lowest_price : Option Rat
  highest_price : Option Rat
  price_changes : Nat
  days_tracked : Int
  trend_direction : String
  trend_confidence : Option Rat
  buying_opportunity_score : Option Rat
deriving DecidableEq, Repr

/-- The trend row written by `_handle_new_listing` (price_tracker.py
lines 152-161): direction `'new'`, score `0.5`; the `trend_confidence`
column is not in the insert list, so it is stored `NULL`. -/
def handle_new_listing_trend (current_price : Option Rat) : TrendRow :=
  { current_price := current_price
    original_price := current_price
    lowest_price := current_price
    highest_price := current_price
    price_changes := 0
    days_tracked := 0
    trend_direction := "new"
    trend_confidence := none
    buying_opportunity_score := some (1/2) }

/-- Embedding of `_calculate_buying_opportunity_score`. -/
def calculate_buying_opportunity_score (current original lowest highest : Rat)
    (trend : String) : Rat :=
  let score : Rat := 1/2
  let score :=
    if highest > lowest then score + (highest - current) / (highest - lowest) * (3/10)
    else score
  let score :=
    if trend = "dropping" then score + 1/5
    else if trend = "rising" then score - 1/10
    else score
  let score :=
    if original > 0 then
      let total_drop := (original - current) / original
      if total_drop > 0 then score + rat_min total_drop (1/5) else score
    else score
  rat_max 0 (rat_min 1 score)

/-- Python `prices[-3:]`. -/
def take_last3 {α : Type} (l : List α) : List α :=
  l.drop (l.length - 3)

/-- The non-`NULL` prices of the history rows, in date order
(`[p[0] for p in price_history if p[0] is not None]`). -/
def usable_prices (price_history : List (Option Rat × Rat)) : List Rat :=
  price_history.filterMap Prod.fst

/-- `recent_prices = prices[-3:] if len(prices) >= 3 else prices`. -/
def recent_window (prices : List Rat) : List Rat :=
  if 3 ≤ prices.length then take_last3 prices else prices

/-- `trend_slope = (recent_prices[-1] - recent_prices[0]) /
len(recent_prices)`. -/
def window_slope (recent_prices : List Rat) : Rat :=
  (recent_prices.getLastD 0 - recent_prices.headD 0) / (recent_prices.length : Rat)

/-- The trend classification of `_update_listing_trends` (price_tracker.py
lines 287-300): slope below −50 per data point is `dropping` at
confidence 0.8, above +50 `rising` at 0.8, otherwise `stable` at 0.6;
the `insufficient_data` branch is only reachable on a window shorter
than 2. -/
def trend_dir_conf (recent_prices : List Rat) : String × Rat :=
  if 2 ≤ recent_prices.length then
    let trend_slope := window_slope recent_prices
    if trend_slope < -50 then ("dropping", 4/5)
    else if trend_slope > 50 then ("rising", 4/5)
    else ("stable", 3/5)
  else ("insufficient_data", 0)

/-- Embedding of `_update_listing_trends`, as a function of the
listing's `price_history` rows `(price, recorded_date)` in
`recorded_date ASC` order.  `none` means the early `return`: no trend
row is written.  Otherwise the `INSERT OR REPLACE` row is returned.
Note `days_tracked` uses all rows' dates while prices filter out SQL
`NULL`s, and `timedelta.days` floors. -/
def update_listing_trends (price_history : List (Option Rat × Rat)) : Option TrendRow :=
  if price_history.length < 2 then none
  else
    let prices := usable_prices price_history
    if prices.length < 2 then none
    else
      let dates := price_history.map Prod.snd
      let original_price := prices.headD 0
      let current_price := prices.getLastD 0
      let lowest_price := (prices.tail).foldl rat_min (prices.headD 0)
      let highest_price := (prices.tail).foldl rat_max (prices.headD 0)
      let price_changes := prices.length - 1
      let days_tracked : Int := ⌊dates.getLastD 0 - dates.headD 0⌋
      let dir_conf := trend_dir_conf (recent_window prices)
      let buying_score := calculate_buying_opportunity_score
        current_price original_price lowest_price highest_price dir_conf.1
      some
        { current_price := some current_price
          original_price := some original_price
          lowest_price := some lowest_price
          highest_price := some highest_price
          price_changes := price_changes
          days_tracked := days_tracked
          trend_direction := dir_conf.1
          trend_confidence := some dir_conf.2
          buying_opportunity_score := some buying_score }

/-! ### Definitions taken from the spec's words (for refinement claims) -/

/-- Spec 4.2.1: `base_weight`: exact=1.0, content=0.9, seller_item=0.85,
images=0.8, item=0.7.  Stated from the spec, to be compared with the
source's `confidence_weights`. -/
def spec_base_weight : FingerprintKind → Rat
  | .exact => 1
  | .content => 9/10
  | .seller_item => 17/20
  | .images => 4/5
  | .item => 7/10

/-- Spec 4.2.1: `recency_factor`: 1.0 if the candidate's `last_seen` is
within 7 days, 0.8 within 30 days, 0.6 within 90 days, else 0.3.  Stated
from the spec, as a function of the elapsed days. -/
def spec_recency_factor (days_since : Rat) : Rat :=
  if days_since ≤ 7 then 1
  else if days_since ≤ 30 then 4/5
  else if days_since ≤ 90 then 3/5
  else 3/10

/-! ### Concrete fixtures used by witnesses and counterexamples -/

/-- A similarity oracle that reports identical strings everywhere
(`SequenceMatcher.ratio` on equal strings is `1.0`). -/
def sim_one : String → String → Rat := fun _ _ => 1

/-- A plain observation of a listing. -/
def ex_obs : Observation :=
  { title := some "t", price := some 100, url := some "u" }

/-- A stored entity matching `ex_obs` on every computed fingerprint but
at price 200, last seen at day 1. -/
def ex_entity1 : Entity :=
  { listing_id := "e1"
    original_url := some "u1"
    title := some "t"
    price := some 200
    description := none
    images := []
    seller := none
    location := none
    fingerprints := create_composite_fingerprint ex_obs
    first_seen := some 0
    last_seen := some 1
    times_seen := 1 }

/-- A second stored entity, identical except at the observation's price
100 and more recently seen (day 5). -/
def ex_entity2 : Entity :=
  { ex_entity1 with listing_id := "e2", price := some 100, last_seen := some 5 }

/-- A two-entity store, `ex_entity1` first. -/
def ex_db : EntityDb := [("e1", ex_entity1), ("e2", ex_entity2)]

/-- An observation carrying neither a title nor a url. -/
def obs_invalid : Observation := { price := some 100 }

/-- A detected-changes record reporting only a price change. -/
def ch_price : Changes := { price_changed := true }

/-- A detected-changes record reporting all three change kinds. -/
def ch_all : Changes :=
  { price_changed := true, content_changed := true, images_changed := true }

/-- A one-entity store with an empty ledger. -/
def ex_store9 : Store := { db := [("e1", ex_entity1)], hist := [] }

/-- Two concrete matches with equal confidence. -/
def ex_match_a : MatchInfo :=
  { fingerprint_type := .exact, matched_listing_id := "a", original_url := none
    confidence := 1, changes_detected := {} }

def ex_match_b : MatchInfo :=
  { fingerprint_type := .exact, matched_listing_id := "b", original_url := none
    confidence := 1, changes_detected := {} }

/-- Two price-changing reconciliations at days 1 and 2. -/
def ex_ops6 : List ReconOp :=
  [.upd "e1" ex_obs ch_price 1, .upd "e1" ex_obs ch_price 2]

/-! ### Order facts about the Python string comparison -/

theorem chars_le_cons_iff {x y : Char} {xs ys : List Char} :
    chars_le (x :: xs) (y :: ys) = true ↔ x < y ∨ (x = y ∧ chars_le xs ys = true) := by
  by_cases h1 : x < y <;> by_cases h2 : x = y <;> simp [chars_le, h1, h2]

theorem chars_le_total : ∀ a b : List Char, chars_le a b = true ∨ chars_le b a = true := by
  intro a
  induction a with
  | nil => intro b; left; rfl
  | cons x xs ih =>
    intro b
    cases b with
    | nil => right; rfl
    | cons y ys =>
      rcases lt_trichotomy x y with h | h | h
      · left; exact chars_le_cons_iff.mpr (Or.inl h)
      · subst h
        rcases ih ys with h2 | h2
        · left; exact chars_le_cons_iff.mpr (Or.inr ⟨rfl, h2⟩)
        · right; exact chars_le_cons_iff.mpr (Or.inr ⟨rfl, h2⟩)
      · right; exact chars_le_cons_iff.mpr (Or.inl h)

theorem chars_le_trans :
    ∀ a b c : List Char, chars_le a b = true → chars_le b c = true → chars_le a c = true := by
  intro a
  induction a with
  | nil => intro b c _ _; rfl
  | cons x xs ih =>
    intro b c hab hbc
    cases b with
    | nil => simp [chars_le] at hab
    | cons y ys =>
      cases c with
      | nil => simp [chars_le] at hbc
      | cons z zs =>
        rcases chars_le_cons_iff.mp hab with h1 | ⟨h1, h1r⟩ <;>
          rcases chars_le_cons_iff.mp hbc with h2 | ⟨h2, h2r⟩
        · exact chars_le_cons_iff.mpr (Or.inl (lt_trans h1 h2))
        · exact chars_le_cons_iff.mpr (Or.inl (h2 ▸ h1))
        · exact chars_le_cons_iff.mpr (Or.inl (h1 ▸ h2))
        · exact chars_le_cons_iff.mpr (Or.inr ⟨h1.trans h2, ih ys zs h1r h2r⟩)

theorem chars_le_antisymm :
    ∀ a b : List Char, chars_le a b = true → chars_le b a = true → a = b := by
  intro a
  induction a with
  | nil =>
    intro b _ hba
    cases b with
    | nil => rfl
    | cons y ys => simp [chars_le] at hba
  | cons x xs ih =>
    intro b hab hba
    cases b with
    | nil => simp [chars_le] at hab
    | cons y ys =>
      rcases chars_le_cons_iff.mp hab with h1 | ⟨h1, h1r⟩ <;>
        rcases chars_le_cons_iff.mp hba with h2 | ⟨h2, h2r⟩
      · exact absurd h2 (lt_asymm h1)
      · exact absurd (h2 ▸ h1) (lt_irrefl y)
      · exact absurd (h1 ▸ h2) (lt_irrefl y)
      · exact h1 ▸ congrArg (x :: ·) (ih ys h1r h2r)

instance : IsTotal String py_le :=
  ⟨fun a b => chars_le_total a.data b.data⟩

instance : IsTrans String py_le :=
  ⟨fun a b c => chars_le_trans a.data b.data c.data⟩

instance : IsAntisymm String py_le :=
  ⟨fun a b h1 h2 => by
    cases a; cases b
    exact congrArg String.mk (chars_le_antisymm _ _ h1 h2)⟩

/-! ### Association-list and ledger lemmas -/

theorem alist_lookup_alist_set_self {α : Type} (h : List (String × α)) (k : String) (v : α) :
    alist_lookup (alist_set h k v) k = some v := by
  induction h with
  | nil => simp [alist_set, alist_lookup]
  | cons p t ih =>
    by_cases hp : p.1 = k
    · simp [alist_set, hp, alist_lookup]
    · simp [alist_set, hp, alist_lookup, ih]

theorem alist_lookup_alist_set_ne {α : Type} (h : List (String × α)) {k k' : String} (v : α)
    (hne : k' ≠ k) : alist_lookup (alist_set h k v) k' = alist_lookup h k' := by
  induction h with
  | nil => simp [alist_set, alist_lookup, Ne.symm hne]
  | cons p t ih =>
    by_cases hp : p.1 = k
    · simp [alist_set, alist_lookup, hp, Ne.symm hne]
    · simp [alist_set, alist_lookup, hp, ih]

theorem mem_alist_set {α : Type} {p' : String × α} :
    ∀ {h : List (String × α)} {k : String} {v : α},
      p' ∈ alist_set h k v → p' ∈ h ∨ p' = (k, v) := by
  intro h
  induction h with
  | nil => intro k v hm; simp [alist_set] at hm; exact Or.inr hm
  | cons p t ih =>
    intro k v hm
    by_cases hp : p.1 = k
    · simp [alist_set, hp] at hm
      rcases hm with hm | hm
      · exact Or.inr hm
      · exact Or.inl (List.mem_cons_of_mem _ hm)
    · simp [alist_set, hp] at hm
      rcases hm with hm | hm
      · exact Or.inl (hm ▸ List.mem_cons_self _ _)
      · rcases ih hm with h2 | h2
        · exact Or.inl (List.mem_cons_of_mem _ h2)
        · exact Or.inr h2

theorem alist_lookup_mem {α : Type} :
    ∀ {h : List (String × α)} {k : String} {v : α},
      alist_lookup h k = some v → (k, v) ∈ h := by
  intro h
  induction h with
  | nil => intro k v hm; simp [alist_lookup] at hm
  | cons p t ih =>
    intro k v hm
    by_cases hp : p.1 = k
    · simp [alist_lookup, hp] at hm
      have hkv : (k, v) = p := by rw [← hp, ← hm]
      rw [hkv]
      exact List.mem_cons_self p t
    · simp [alist_lookup, hp] at hm
      exact List.mem_cons_of_mem _ (ih hm)

theorem history_entries_record_self (hdb : HistoryDb) (lid : String) (now : Rat)
    (o n : Option Rat) :
    history_entries (record_price_change hdb lid now o n) lid
      = history_entries hdb lid ++ [mk_price_entry now o n] := by
  unfold record_price_change history_entries
  rw [alist_lookup_alist_set_self]
  rfl

theorem history_entries_record_ne (hdb : HistoryDb) {lid k : String} (now : Rat)
    (o n : Option Rat) (hne : k ≠ lid) :
    history_entries (record_price_change hdb lid now o n) k = history_entries hdb k := by
  unfold record_price_change history_entries
  rw [alist_lookup_alist_set_ne _ _ hne]

theorem mem_history_entries {hdb : HistoryDb} {k : String} {e : PriceEntry}
    (he : e ∈ history_entries hdb k) : ∃ p ∈ hdb, e ∈ p.2 := by
  unfold history_entries at he
  cases hl : alist_lookup hdb k with
  | none => rw [hl] at he; simp at he
  | some l =>
    rw [hl] at he
    exact ⟨(k, l), alist_lookup_mem hl, he⟩

/-! ### Claim C1 -/

/-- C1: for a matched Observation exactly one action is chosen, in the
priority order price > content > images > skip (`update_price_history`
iff a price change was detected; `update_listing_details` iff no price
change but a content change; `update_images` iff only an image change;
`skip_duplicate` iff no change), and `update_duplicate_entry` still
applies every actually-changed field to the entity, always refreshing
`last_seen` and incrementing `times_seen`, with `skip_duplicate`
touching those two fields only. -/
theorem C1_action_priority (changes : Changes) (now : Rat) (entry : Entity)
    (new_data : Observation) :
    (recommended_action changes = .update_price_history ↔ changes.price_changed = true) ∧
    (recommended_action changes = .update_listing_details ↔
      (changes.price_changed = false ∧ changes.content_changed = true)) ∧
    (recommended_action changes = .update_images ↔
      (changes.price_changed = false ∧ changes.content_changed = false ∧
        changes.images_changed = true)) ∧
    (recommended_action changes = .skip_duplicate ↔
      (changes.price_changed = false ∧ changes.content_changed = false ∧
        changes.images_changed = false)) ∧
    (changes.price_changed = true →
      (apply_update now entry new_data changes).price = new_data.price) ∧
    (changes.content_changed = true →
      (apply_update now entry new_data changes).description = new_data.description) ∧
    (changes.images_changed = true →
      (apply_update now entry new_data changes).images = new_data.images) ∧
    (apply_update now entry new_data changes).last_seen = some now ∧
    (apply_update now entry new_data changes).times_seen = entry.times_seen + 1 ∧
    (changes.price_changed = false ∧ changes.content_changed = false ∧
        changes.images_changed = false →
      apply_update now entry new_data changes =
        { entry with last_seen := some now, times_seen := entry.times_seen + 1 }) := by
  obtain ⟨pc, cc, ic, pd, pa, ia, ir⟩ := changes
  cases pc <;> cases cc <;> cases ic <;>
    simp [recommended_action, apply_update]

/-- C1 witness: with all three changes detected the chosen action is the
price one, yet the description and images are applied too. -/
theorem C1_witness :
    recommended_action ch_all = Action.update_price_history ∧
    (apply_update 5 ex_entity1 ex_obs ch_all).price = ex_obs.price ∧
    (apply_update 5 ex_entity1 ex_obs ch_all).description = ex_obs.description ∧
    (apply_update 5 ex_entity1 ex_obs ch_all).images = ex_obs.images :=
  ⟨(C1_action_priority ch_all 5 ex_entity1 ex_obs).1.mpr rfl,
   (C1_action_priority ch_all 5 ex_entity1 ex_obs).2.2.2.2.1 rfl,
   (C1_action_priority ch_all 5 ex_entity1 ex_obs).2.2.2.2.2.1 rfl,
   (C1_action_priority ch_all 5 ex_entity1 ex_obs).2.2.2.2.2.2.1 rfl⟩

/-! ### Claim C3 -/

/-- C3 counterexample: a present price of 0 is numerically different
from a present price of 200, yet no price change is detected, because
the code tests Python truthiness (`if old_price and new_price`) and `0`
is falsy. -/
theorem C3_counterexample :
    ex_entity1.price = some 200 ∧
    (Observation.mk none none none (some 0) none none [] none).price = some 0 ∧
    ((0 : Rat) ≠ 200) ∧
    (detect_changes sim_one (Observation.mk none none none (some 0) none none [] none)
        ex_entity1).price_changed = false := by
  decide

/-- C3 amended: a price change is detected iff both prices are present,
both are nonzero, and they differ. -/
theorem C3_amended (simr : String → String → Rat) (new_listing : Observation)
    (stored_listing : Entity) :
    (detect_changes simr new_listing stored_listing).price_changed = true ↔
      ∃ o n, stored_listing.price = some o ∧ new_listing.price = some n ∧
        o ≠ 0 ∧ n ≠ 0 ∧ o ≠ n := by
  cases ho : stored_listing.price with
  | none => simp [detect_changes, truthy_rat, ho]
  | some o =>
    cases hn : new_listing.price with
    | none => simp [detect_changes, truthy_rat, ho, hn]
    | some n =>
      by_cases ho0 : o = 0 <;> by_cases hn0 : n = 0 <;>
        simp [detect_changes, truthy_rat, ho, hn, ho0, hn0]

/-- C3 witness: prices 200 and 100, both present and nonzero, are
reported as a price change. -/
theorem C3_witness :
    (detect_changes sim_one ex_obs ex_entity1).price_changed = true :=
  (C3_amended sim_one ex_obs ex_entity1).mpr
    ⟨200, 100, rfl, rfl, by norm_num, by norm_num, by norm_num⟩

/-! ### Claim C4 -/

/-- C4: for a candidate matched via fingerprint kind k, the computed
confidence equals `base_weight[k] * 0.7 + title_similarity * 0.2 +
recency_factor * 0.1` clamped to at most 1.0, with the spec's base
weights (exact=1.0, content=0.9, seller_item=0.85, images=0.8, item=0.7)
and the spec's recency factor of the days since the candidate's
`last_seen` (1.0 within 7 days, 0.8 within 30, 0.6 within 90, else
0.3). -/
theorem C4_confidence_formula (simr : String → String → Rat) (now : Rat)
    (k : FingerprintKind) (new_listing : Observation) (stored_listing : Entity) (d : Rat)
    (h : stored_listing.last_seen = some d) :
    calculate_confidence simr now k new_listing stored_listing =
      rat_min (spec_base_weight k * (7/10)
        + simr (py_lower (new_listing.title.getD ""))
            (py_lower (stored_listing.title.getD "")) * (2/10)
        + spec_recency_factor (now - d) * (1/10)) 1 := by
  cases k <;>
    simp [calculate_confidence, confidence_weights, spec_base_weight,
      calculate_time_factor, spec_recency_factor, h]

/-- C4 witness: the formula evaluated for the `exact` kind at a
candidate last seen 5 days ago. -/
theorem C4_witness :
    calculate_confidence sim_one 6 FingerprintKind.exact ex_obs ex_entity1 =
      rat_min (spec_base_weight FingerprintKind.exact * (7/10)
        + sim_one (py_lower (ex_obs.title.getD "")) (py_lower (ex_entity1.title.getD "")) * (2/10)
        + spec_recency_factor (6 - 1) * (1/10)) 1 :=
  C4_confidence_formula sim_one 6 FingerprintKind.exact ex_obs ex_entity1 1 rfl

/-! ### Claim C2 -/

theorem build_matched_listings_nil (simr : String → String → Rat) (now : Rat)
    (obs : Observation) : build_matched_listings simr now [] obs = [] := by
  unfold build_matched_listings kinds_in_order
  cases h : (create_composite_fingerprint obs).images <;>
    simp [FingerprintSet.get, find_matches_by_fingerprint, h]

/-- C2 counterexample: an Observation with neither title nor url is not
rejected: against an empty store `find_duplicates` classifies it
`add_new`, and `add_to_duplicate_db` creates an Entity for it (with null
title and url), so reconciliation is not a no-op. -/
theorem C2_counterexample :
    obs_invalid.title = none ∧ obs_invalid.url = none ∧
    (find_duplicates sim_one 0 [] obs_invalid).is_duplicate = false ∧
    (find_duplicates sim_one 0 [] obs_invalid).recommended_action = Action.add_new ∧
    (add_to_duplicate_db [] obs_invalid (create_composite_fingerprint obs_invalid) 0).length
      = 1 ∧
    alist_lookup (add_to_duplicate_db [] obs_invalid (create_composite_fingerprint obs_invalid) 0)
      "0" ≠ none := by
  decide

/-- C2 amended: reconciliation performs no title/url validation.  An
Observation lacking both is processed like any other: against an empty
store it is classified `add_new` and an Entity is created for it, with
null title and url, `times_seen = 1` and `first_seen = last_seen`. -/
theorem C2_amended (simr : String → String → Rat) (now : Rat) (obs : Observation)
    (ht : obs.title = none) (hu : obs.url = none) :
    (find_duplicates simr now [] obs).is_duplicate = false ∧
    (find_duplicates simr now [] obs).recommended_action = Action.add_new ∧
    ∃ lid e,
      alist_lookup (add_to_duplicate_db [] obs (create_composite_fingerprint obs) now) lid
        = some e ∧
      e.title = none ∧ e.original_url = none ∧ e.times_seen = 1 ∧
      e.first_seen = some now ∧ e.last_seen = some now := by
  refine ⟨?_, ?_, ?_⟩
  · simp [find_duplicates, build_matched_listings_nil, py_max_by_confidence]
  · simp [find_duplicates, build_matched_listings_nil, py_max_by_confidence]
  · unfold add_to_duplicate_db
    exact ⟨_, _, alist_lookup_alist_set_self _ _ _, ht, hu, rfl, rfl, rfl⟩

/-- C2 witness: the amended statement at the concrete invalid
observation. -/
theorem C2_witness :
    (find_duplicates sim_one 0 [] obs_invalid).is_duplicate = false ∧
    (find_duplicates sim_one 0 [] obs_invalid).recommended_action = Action.add_new ∧
    ∃ lid e,
      alist_lookup
          (add_to_duplicate_db [] obs_invalid (create_composite_fingerprint obs_invalid) 0) lid
        = some e ∧
      e.title = none ∧ e.original_url = none ∧ e.times_seen = 1 ∧
      e.first_seen = some 0 ∧ e.last_seen = some 0 :=
  C2_amended sim_one 0 obs_invalid rfl rfl

/-! ### Claim C5 -/

theorem py_max_fold_spec (ms : List MatchInfo) (acc : MatchInfo) :
    (ms.foldl (fun best x => if x.confidence > best.confidence then x else best) acc = acc ∨
      ms.foldl (fun best x => if x.confidence > best.confidence then x else best) acc ∈ ms) ∧
    acc.confidence ≤
      (ms.foldl (fun best x => if x.confidence > best.confidence then x else best)
        acc).confidence ∧
    ∀ x ∈ ms, x.confidence ≤
      (ms.foldl (fun best x => if x.confidence > best.confidence then x else best)
        acc).confidence := by
  induction ms generalizing acc with
  | nil => simp
  | cons y ys ih =>
    simp only [List.foldl_cons]
    obtain ⟨hmem, hle, hall⟩ := ih (if y.confidence > acc.confidence then y else acc)
    have hacc : acc.confidence ≤ (if y.confidence > acc.confidence then y else acc).confidence := by
      by_cases hy : y.confidence > acc.confidence
      · simp [hy]; exact le_of_lt hy
      · simp [hy]
    have hy2 : y.confidence ≤ (if y.confidence > acc.confidence then y else acc).confidence := by
      by_cases hy : y.confidence > acc.confidence
      · simp [hy]
      · simp [hy]; exact le_of_not_lt hy
    refine ⟨?_, le_trans hacc hle, ?_⟩
    · rcases hmem with h | h
      · by_cases hy : y.confidence > acc.confidence
        · rw [h]; right; simp [hy]
        · left; rw [h]; simp [hy]
      · right; exact List.mem_cons_of_mem _ h
    · intro x hx
      rcases List.mem_cons.mp hx with h | h
      · rw [h]; exact le_trans hy2 hle
      · exact hall x h

/-- C5 amended: the selected best match always carries the maximal
confidence among the candidates, but ties are broken by position in the
candidate list (the earlier candidate wins, `max` only replacing on a
strictly greater key), not by `last_seen`. -/
theorem C5_amended :
    (∀ (l : List MatchInfo) (m : MatchInfo), py_max_by_confidence l = some m →
      m ∈ l ∧ ∀ x ∈ l, x.confidence ≤ m.confidence) ∧
    (∀ a b : MatchInfo, a.confidence = b.confidence →
      py_max_by_confidence [a, b] = some a) := by
  constructor
  · intro l m hm
    cases l with
    | nil => simp [py_max_by_confidence] at hm
    | cons m0 ms =>
      simp only [py_max_by_confidence, Option.some.injEq] at hm
      obtain ⟨hmem, hle, hall⟩ := py_max_fold_spec ms m0
      rw [hm] at hmem hle hall
      constructor
      · rcases hmem with h | h
        · exact h ▸ List.mem_cons_self m0 ms
        · exact List.mem_cons_of_mem _ h
      · intro x hx
        rcases List.mem_cons.mp hx with h | h
        · exact h ▸ hle
        · exact hall x h
  · intro a b hab
    simp [py_max_by_confidence, hab]

/-- C5 counterexample: the observation matches the two stored entities
with equal confidence on every fingerprint kind; the entity picked as
best match is `e1`, the one listed first, although `e2` has the more
recent `last_seen` (day 5 versus day 1).  The selection is observable:
`e1` differs in price, so the recommended action is
`update_price_history`, while the most-recently-seen candidate `e2`
exhibits no change at all and would have produced `skip_duplicate`. -/
theorem C5_counterexample :
    ex_entity1.last_seen = some 1 ∧ ex_entity2.last_seen = some 5 ∧
    ((build_matched_listings sim_one 6 ex_db ex_obs).filter
        (fun m => m.confidence == 1)).map (fun m => m.matched_listing_id) = ["e1", "e2"] ∧
    (py_max_by_confidence (build_matched_listings sim_one 6 ex_db ex_obs)).map
        (fun m => m.matched_listing_id) = some "e1" ∧
    (find_duplicates sim_one 6 ex_db ex_obs).recommended_action
      = Action.update_price_history ∧
    recommended_action (detect_changes sim_one ex_obs ex_entity2) = Action.skip_duplicate := by
  decide

/-- C5 witness: the amended tie-break rule on two concrete equal-confidence
matches selects the first. -/
theorem C5_witness : py_max_by_confidence [ex_match_a, ex_match_b] = some ex_match_a :=
  C5_amended.2 ex_match_a ex_match_b rfl

/-! ### Claim C6 -/

/-- Wall-clock time (`datetime.now()`) of one reconciliation. -/
def op_now : ReconOp → Rat
  | .add _ now => now
  | .upd _ _ _ now => now

/-- Every entry already in the ledger is dated no later than `t`. -/
def hist_le (hdb : HistoryDb) (t : Rat) : Prop :=
  ∀ p ∈ hdb, ∀ e ∈ p.2, e.timestamp ≤ t

/-- The clock only moves forward across a run: reconciliations carry
non-decreasing timestamps, all of them at or after every entry already
in the ledger. -/
def clock_ok (st : Store) (ops : List ReconOp) : Prop :=
  ops.Pairwise (fun a b => op_now a ≤ op_now b) ∧ ∀ op ∈ ops, hist_le st.hist (op_now op)

theorem hist_le_entries {hdb : HistoryDb} {t : Rat} {k : String} {e : PriceEntry}
    (h : hist_le hdb t) (he : e ∈ history_entries hdb k) : e.timestamp ≤ t := by
  obtain ⟨p, hp, hep⟩ := mem_history_entries he
  exact h p hp e hep

theorem recon_step_hist (st : Store) (op : ReconOp) (k : String) :
    history_entries (recon_step st op).hist k = history_entries st.hist k ∨
    ∃ o n, history_entries (recon_step st op).hist k
        = history_entries st.hist k ++ [mk_price_entry (op_now op) o n] := by
  cases op with
  | add obs now => left; rfl
  | upd lid nd c now =>
    simp only [recon_step, update_duplicate_entry]
    cases hl : alist_lookup st.db lid with
    | none => left; rfl
    | some entry =>
      by_cases hc : c.price_changed
      · by_cases hk : k = lid
        · subst hk
          right
          exact ⟨entry.price, nd.price, by simp [hc, history_entries_record_self, op_now]⟩
        · left
          simp [hc, history_entries_record_ne _ _ _ _ hk]
      · left
        simp [hc]

theorem hist_le_recon_step {st : Store} {op : ReconOp} {t : Rat}
    (h : hist_le st.hist t) (hop : op_now op ≤ t) : hist_le (recon_step st op).hist t := by
  cases op with
  | add obs now => exact h
  | upd lid nd c now =>
    simp only [recon_step, update_duplicate_entry]
    cases hl : alist_lookup st.db lid with
    | none => exact h
    | some entry =>
      by_cases hc : c.price_changed
      · simp only [hc, if_pos]
        intro p hp e he
        rcases mem_alist_set hp with hmem | heq
        · exact h p hmem e he
        · rw [heq] at he
          rcases List.mem_append.mp he with h1 | h1
          · exact hist_le_entries h h1
          · simp only [List.mem_singleton] at h1
            rw [h1]
            simpa [mk_price_entry, op_now] using hop
      · simpa [hc] using h

/-- C6: over any sequence of reconciliations the Price History ledger of
every entity is append-only — the old ledger is an unchanged prefix of
the new one (so every written `(timestamp, old_price, new_price)` entry
persists), its length never decreases, and, whenever the reconciliation
timestamps move forward (`clock_ok`), a timestamp-ordered ledger stays
timestamp-ordered; the ledger is only ever appended to, never
rewritten. -/
theorem C6_ledger_append_only (ops : List ReconOp) (st : Store) (k : String) :
    ((history_entries (recon_run ops st).hist k).take (history_entries st.hist k).length
        = history_entries st.hist k ∧
      (history_entries st.hist k).length
        ≤ (history_entries (recon_run ops st).hist k).length) ∧
    (clock_ok st ops →
      (history_entries st.hist k).Pairwise (fun a b => a.timestamp ≤ b.timestamp) →
      (history_entries (recon_run ops st).hist k).Pairwise
        (fun a b => a.timestamp ≤ b.timestamp)) := by
  induction ops generalizing st with
  | nil =>
    exact ⟨⟨by simp [recon_run], le_refl _⟩, fun _ hp => hp⟩
  | cons op rest ih =>
    have hrun : recon_run (op :: rest) st = recon_run rest (recon_step st op) := rfl
    obtain ⟨⟨ihtake, ihlen⟩, ihpair⟩ := ih (recon_step st op)
    have hclock : clock_ok st (op :: rest) → clock_ok (recon_step st op) rest := by
      rintro ⟨hpw, hall⟩
      obtain ⟨hrel, hpw'⟩ := List.pairwise_cons.mp hpw
      refine ⟨hpw', fun op' hop' => ?_⟩
      exact hist_le_recon_step (hall op' (List.mem_cons_of_mem _ hop')) (hrel op' hop')
    rcases recon_step_hist st op k with hstep | ⟨o, n, hstep⟩
    · rw [hrun]
      rw [hstep] at ihtake ihlen ihpair
      exact ⟨⟨ihtake, ihlen⟩, fun hc hp => ihpair (hclock hc) hp⟩
    · rw [hrun]
      rw [hstep] at ihtake ihlen ihpair
      constructor
      · constructor
        · have h1 := ihtake
          have hlen : (history_entries st.hist k ++ [mk_price_entry (op_now op) o n]).length
              = (history_entries st.hist k).length + 1 := by simp
          rw [hlen] at h1
          have h2 : (history_entries (recon_run rest (recon_step st op)).hist k).take
                (history_entries st.hist k).length
              = ((history_entries (recon_run rest (recon_step st op)).hist k).take
                  ((history_entries st.hist k).length + 1)).take
                  (history_entries st.hist k).length := by
            rw [List.take_take]
            congr 1
            omega
          rw [h2, h1]
          exact List.take_left _ _
        · calc (history_entries st.hist k).length
              ≤ (history_entries st.hist k ++ [mk_price_entry (op_now op) o n]).length := by
                simp
            _ ≤ _ := ihlen
      · intro hc hp
        refine ihpair (hclock hc) ?_
        rw [List.pairwise_append]
        refine ⟨hp, List.pairwise_singleton _ _, fun a ha b hb => ?_⟩
        simp only [List.mem_singleton] at hb
        rw [hb]
        have : a.timestamp ≤ op_now op :=
          hist_le_entries (hc.2 op (List.mem_cons_self _ _)) ha
        simpa [mk_price_entry] using this

/-- C6 witness: a concrete two-reconciliation run against a one-entity
store with an empty ledger keeps the ledger prefix-stable and
timestamp-ordered. -/
theorem C6_witness :
    (history_entries (recon_run ex_ops6 ex_store9).hist "e1").take
        (history_entries ex_store9.hist "e1").length = history_entries ex_store9.hist "e1" ∧
    (history_entries (recon_run ex_ops6 ex_store9).hist "e1").Pairwise
      (fun a b => a.timestamp ≤ b.timestamp) :=
  ⟨(C6_ledger_append_only ex_ops6 ex_store9 "e1").1.1,
   (C6_ledger_append_only ex_ops6 ex_store9 "e1").2
     (by unfold clock_ok hist_le; decide) (by decide)⟩

/-! ### Claim C7 -/

/-- C7 counterexample: with a single ledger entry the code does not
produce `trend_direction = insufficient_data` with confidence 0.0 — it
returns without writing any trend row, and the row initialized by
`_handle_new_listing` carries `trend_direction = "new"` with a `NULL`
(unset) confidence. -/
theorem C7_counterexample :
    update_listing_trends [(some 100, 0)] = none ∧
    update_listing_trends [] = none ∧
    (handle_new_listing_trend (some 100)).trend_direction = "new" ∧
    "new" ≠ "insufficient_data" ∧
    (handle_new_listing_trend (some 100)).trend_confidence = none ∧
    none ≠ some (0 : Rat) := by
  decide

theorem trend_dir_conf_spec (l : List Rat) (h2 : 2 ≤ l.length) :
    (window_slope l < -50 → trend_dir_conf l = ("dropping", 4/5)) ∧
    (50 < window_slope l → trend_dir_conf l = ("rising", 4/5)) ∧
    (-50 ≤ window_slope l → window_slope l ≤ 50 → trend_dir_conf l = ("stable", 3/5)) := by
  refine ⟨fun hs => ?_, fun hs => ?_, fun hs1 hs2 => ?_⟩
  · rw [trend_dir_conf, if_pos h2]
    simp only [if_pos hs]
  · rw [trend_dir_conf, if_pos h2]
    rw [if_neg (by linarith), if_pos hs]
  · rw [trend_dir_conf, if_pos h2]
    rw [if_neg (not_lt.mpr hs1), if_neg (not_lt.mpr hs2)]

theorem recent_window_len2 {prices : List Rat} (h : 2 ≤ prices.length) :
    2 ≤ (recent_window prices).length := by
  unfold recent_window take_last3
  by_cases h3 : 3 ≤ prices.length
  · rw [if_pos h3]
    rw [List.length_drop]
    omega
  · rw [if_neg h3]
    exact h

/-- C7 amended: a trend is only computed from at least 2 history rows
with non-null prices; with fewer (in particular with 0 or 1 ledger
entries) no trend row is written at all — a freshly tracked listing's
row keeps `trend_direction = "new"` with unset confidence rather than
`insufficient_data`/0.0.  When a row is written, the slope of the last
up-to-3 usable prices (most recent minus earliest of the window, divided
by the window length) classifies it exactly as the claim states: below
−50 `dropping` at confidence 0.8, above +50 `rising` at 0.8, otherwise
`stable` at 0.6. -/
theorem C7_amended (price_history : List (Option Rat × Rat)) :
    (price_history.length < 2 ∨ (usable_prices price_history).length < 2 →
      update_listing_trends price_history = none) ∧
    (∀ row, update_listing_trends price_history = some row →
      2 ≤ (usable_prices price_history).length ∧
      (window_slope (recent_window (usable_prices price_history)) < -50 →
        row.trend_direction = "dropping" ∧ row.trend_confidence = some (4/5)) ∧
      (50 < window_slope (recent_window (usable_prices price_history)) →
        row.trend_direction = "rising" ∧ row.trend_confidence = some (4/5)) ∧
      (-50 ≤ window_slope (recent_window (usable_prices price_history)) →
        window_slope (recent_window (usable_prices price_history)) ≤ 50 →
        row.trend_direction = "stable" ∧ row.trend_confidence = some (3/5))) := by
  constructor
  · intro h
    rcases h with h | h
    · simp [update_listing_trends, h]
    · by_cases h0 : price_history.length < 2
      · simp [update_listing_trends, h0]
      · simp [update_listing_trends, h0, h]
  · intro row hrow
    by_cases h0 : price_history.length < 2
    · simp [update_listing_trends, h0] at hrow
    by_cases h1 : (usable_prices price_history).length < 2
    · simp [update_listing_trends, h0, h1] at hrow
    have h2 : 2 ≤ (usable_prices price_history).length := le_of_not_lt h1
    refine ⟨h2, ?_⟩
    simp only [update_listing_trends, if_neg h0, if_neg h1, Option.some.injEq] at hrow
    obtain ⟨hdrop, hrise, hstable⟩ :=
      trend_dir_conf_spec (recent_window (usable_prices price_history)) (recent_window_len2 h2)
    refine ⟨fun hs => ?_, fun hs => ?_, fun hs1 hs2 => ?_⟩
    · rw [← hrow]
      simp [hdrop hs]
    · rw [← hrow]
      simp [hrise hs]
    · rw [← hrow]
      simp [hstable hs1 hs2]

/-- C7 witness: a two-entry history dropping from 100 to 30 has slope
−35 over the window of length 2, which the code classifies as `stable`
with confidence 0.6. -/
theorem C7_witness :
    (update_listing_trends [(some 100, 0), (some 30, 1)]).map (fun r => r.trend_direction)
      = some "stable" := by
  have h := (C7_amended [(some 100, 0), (some 30, 1)]).2
  cases hrow : update_listing_trends [(some 100, 0), (some 30, 1)] with
  | none =>
    cases ((by decide : update_listing_trends [(some 100, 0), (some 30, 1)] ≠ none) hrow)
  | some row =>
    have hr := (h row hrow).2.2.2 (by decide) (by decide)
    simp [hr.1]

/-! ### Claim C8 -/

/-- C8 counterexample: the image fingerprint is not computed from a
deduplicated URL list.  `["a.jpg"]` and `["a.jpg", "a.jpg"]` have the
same sorted deduplicated list, yet their fingerprints differ (the
duplicate URL is hashed twice). -/
theorem C8_counterexample :
    (["a.jpg"] : List String).dedup = (["a.jpg", "a.jpg"] : List String).dedup ∧
    create_image_fingerprint ["a.jpg"] ≠ create_image_fingerprint ["a.jpg", "a.jpg"] := by
  decide

/-- C8 amended: the images fingerprint is the digest of the sorted list
of non-empty image URLs with duplicates retained — so it is invariant
under reordering of the image list (any permutation yields the same
fingerprint), but not under duplication — and it is absent exactly when
the Observation has no images. -/
theorem C8_amended (l1 l2 : List String) :
    (l1.Perm l2 → create_image_fingerprint l1 = create_image_fingerprint l2) ∧
    (create_image_fingerprint l1 = none ↔ l1 = []) := by
  constructor
  · intro hp
    cases h1 : l1 with
    | nil =>
      rw [h1] at hp
      rw [hp.symm.eq_nil]
    | cons x xs =>
      cases h2 : l2 with
      | nil =>
        rw [h1, h2] at hp
        exact absurd hp.eq_nil (by simp)
      | cons y ys =>
        rw [h1, h2] at hp
        unfold create_image_fingerprint
        simp only [List.isEmpty_cons, Bool.false_eq_true, if_false]
        have hfil : ((x :: xs).filter (fun img => img ≠ "")).Perm
            ((y :: ys).filter (fun img => img ≠ "")) := hp.filter _
        have hsorted : List.insertionSort py_le ((x :: xs).filter (fun img => img ≠ ""))
            = List.insertionSort py_le ((y :: ys).filter (fun img => img ≠ "")) :=
          List.eq_of_perm_of_sorted
            (((List.perm_insertionSort py_le _).trans hfil).trans
              (List.perm_insertionSort py_le _).symm)
            (List.sorted_insertionSort py_le _)
            (List.sorted_insertionSort py_le _)
        rw [hsorted]
  · cases l1 with
    | nil => simp [create_image_fingerprint]
    | cons x xs => simp [create_image_fingerprint]

/-- C8 witness: reordering the image list leaves the fingerprint
unchanged. -/
theorem C8_witness :
    create_image_fingerprint ["b.jpg", "a.jpg"] = create_image_fingerprint ["a.jpg", "b.jpg"] :=
  (C8_amended ["b.jpg", "a.jpg"] ["a.jpg", "b.jpg"]).1 (by decide)

/-! ### Claim C9 -/

/-- C9 counterexample: with a detected price change, a successful
history write followed by a failed entity-store write leaves the
price-history ledger already appended (and the entity store unchanged):
the reconciliation is not atomic, and a failed entity-store write does
not leave the ledger unchanged. -/
theorem C9_counterexample :
    (detect_changes sim_one ex_obs ex_entity1).price_changed = true ∧
    update_duplicate_entry_fallible true true true false 6 ex_store9 "e1" ex_obs
        (detect_changes sim_one ex_obs ex_entity1)
      = Except.error { db := ex_store9.db,
                       hist := [("e1", [mk_price_entry 6 (some 200) (some 100)])] } ∧
    ([("e1", [mk_price_entry 6 (some 200) (some 100)])] : HistoryDb) ≠ ex_store9.hist := by
  decide

/-- C9 amended: failures are only partially atomic.  A failed read of
the entity store, and a failed read or write of the price-history store,
abort the reconciliation with both stores unchanged; an all-successful
run equals the pure update; but a failed entity-store write after a
detected price change aborts with the price-history append already
persisted (entity store unchanged) — the call is not atomic, and the
caller cannot assume the ledger was left unchanged. -/
theorem C9_amended (read_db_ok read_hist_ok write_hist_ok write_db_ok : Bool) (now : Rat)
    (st : Store) (listing_id : String) (new_data : Observation) (changes : Changes) :
    (read_db_ok = false →
      update_duplicate_entry_fallible read_db_ok read_hist_ok write_hist_ok write_db_ok
          now st listing_id new_data changes = .error st) ∧
    (∀ entry, alist_lookup st.db listing_id = some entry → read_db_ok = true →
      changes.price_changed = true → (read_hist_ok = false ∨ write_hist_ok = false) →
      update_duplicate_entry_fallible read_db_ok read_hist_ok write_hist_ok write_db_ok
          now st listing_id new_data changes = .error st) ∧
    (read_db_ok = true → read_hist_ok = true → write_hist_ok = true → write_db_ok = true →
      update_duplicate_entry_fallible read_db_ok read_hist_ok write_hist_ok write_db_ok
          now st listing_id new_data changes
        = .ok (update_duplicate_entry now st listing_id new_data changes)) ∧
    (∀ entry, alist_lookup st.db listing_id = some entry → read_db_ok = true →
      read_hist_ok = true → write_hist_ok = true → write_db_ok = false →
      changes.price_changed = true →
      update_duplicate_entry_fallible read_db_ok read_hist_ok write_hist_ok write_db_ok
          now st listing_id new_data changes
        = .error { st with
            hist := record_price_change st.hist listing_id now entry.price new_data.price }) ∧
    (∀ entry, alist_lookup st.db listing_id = some entry → read_db_ok = true →
      write_db_ok = false → changes.price_changed = false →
      update_duplicate_entry_fallible read_db_ok read_hist_ok write_hist_ok write_db_ok
          now st listing_id new_data changes = .error st) := by
  refine ⟨?_, ?_, ?_, ?_, ?_⟩
  · intro h
    simp [update_duplicate_entry_fallible, h]
  · intro entry hl h hc hfail
    rcases hfail with hf | hf <;>
      simp [update_duplicate_entry_fallible, h, hl, hc, hf]
  · intro h1 h2 h3 h4
    unfold update_duplicate_entry_fallible update_duplicate_entry
    cases hl : alist_lookup st.db listing_id with
    | none => simp [h1]
    | some entry =>
      by_cases hc : changes.price_changed <;>
        simp [h1, h2, h3, h4, hc]
  · intro entry hl h1 h2 h3 h4 hc
    simp [update_duplicate_entry_fallible, h1, h2, h3, h4, hl, hc]
  · intro entry hl h1 h4 hc
    simp [update_duplicate_entry_fallible, h1, h4, hl, hc]

/-- C9 witness: the non-atomic clause evaluated at the concrete store of
the counterexample scenario. -/
theorem C9_witness :
    update_duplicate_entry_fallible true true true false 6 ex_store9 "e1" ex_obs ch_price
      = .error { ex_store9 with
          hist := record_price_change ex_store9.hist "e1" 6 ex_entity1.price ex_obs.price } :=
  (C9_amended true true true false 6 ex_store9 "e1" ex_obs ch_price).2.2.2.1
    ex_entity1 (by decide) rfl rfl rfl rfl rfl

/-! ### Claim C10 -/

/-- C10: `update_duplicate_entry` is frame-bounded: it can change at
most the matched entity's `price`, `description`, `images`, `last_seen`
and `times_seen`; the entity's id, url, title, seller, location,
`first_seen` and stored fingerprints are unchanged by every update,
whatever changes were detected; entities under other ids are untouched,
and an unknown id leaves the store as it was. -/
theorem C10_update_frame (now : Rat) (st : Store) (listing_id : String)
    (new_data : Observation) (changes : Changes) :
    (∀ k, k ≠ listing_id →
      alist_lookup (update_duplicate_entry now st listing_id new_data changes).db k
        = alist_lookup st.db k) ∧
    (∀ e, alist_lookup st.db listing_id = some e →
      alist_lookup (update_duplicate_entry now st listing_id new_data changes).db listing_id
          = some (apply_update now e new_data changes) ∧
      (apply_update now e new_data changes).listing_id = e.listing_id ∧
      (apply_update now e new_data changes).original_url = e.original_url ∧
      (apply_update now e new_data changes).title = e.title ∧
      (apply_update now e new_data changes).seller = e.seller ∧
      (apply_update now e new_data changes).location = e.location ∧
      (apply_update now e new_data changes).first_seen = e.first_seen ∧
      (apply_update now e new_data changes).fingerprints = e.fingerprints) ∧
    (alist_lookup st.db listing_id = none →
      update_duplicate_entry now st listing_id new_data changes = st) := by
  refine ⟨?_, ?_, ?_⟩
  · intro k hk
    unfold update_duplicate_entry
    cases hl : alist_lookup st.db listing_id with
    | none => rfl
    | some entry => exact alist_lookup_alist_set_ne _ _ hk
  · intro e he
    unfold update_duplicate_entry
    rw [he]
    refine ⟨alist_lookup_alist_set_self _ _ _, ?_⟩
    obtain ⟨pc, cc, ic, pd, pa, ia, ir⟩ := changes
    cases pc <;> cases cc <;> cases ic <;> simp [apply_update]
  · intro he
    unfold update_duplicate_entry
    rw [he]

/-- C10 witness: a price-only update leaves the title, url and
fingerprints of the matched entity alone and does not touch other
keys. -/
theorem C10_witness :
    alist_lookup (update_duplicate_entry 6 ex_store9 "e1" ex_obs ch_price).db "other"
      = alist_lookup ex_store9.db "other" ∧
    (apply_update 6 ex_entity1 ex_obs ch_price).title = ex_entity1.title ∧
    (apply_update 6 ex_entity1 ex_obs ch_price).fingerprints = ex_entity1.fingerprints :=
  ⟨(C10_update_frame 6 ex_store9 "e1" ex_obs ch_price).1 "other" (by decide),
   ((C10_update_frame 6 ex_store9 "e1" ex_obs ch_price).2.1 ex_entity1 (by decide)).2.2.2.1,
   ((C10_update_frame 6 ex_store9 "e1" ex_obs ch_price).2.1 ex_entity1 (by decide)).2.2.2.2.2.2.2⟩

end MPT
